import Mathlib

/-!
Verification development for a 3D graphing calculator.

The repository builds indexed triangle meshes from two sources:

* `Graph.cpp` — a height-field mesher: it samples a scalar expression
  `z = f(x, y)` over the square `[-5, 5] × [-5, 5]` on an `n × n` grid,
  normalizes heights into `[0, 1]` (sentinel `-1` for undefined samples),
  derives central-difference normals, and triangulates per grid cell.
* `OBJModel.cpp` — a polygon-file loader: it parses `v` / `vn` / `vt` / `f` /
  `mtllib` directives, expands face index groups, and deduplicates the
  expanded vertex records into a compact vertex buffer plus index buffer.

The C++ float computations are embedded over exact rationals `ℚ` (the control
flow of the code branches only on comparisons, which we mirror exactly); `NaN`
is modelled by a dedicated constructor, and the single irrational operation
(`glm::normalize`, a square root) is modelled over `ℝ`.  Fallible array
accesses (`std::vector::operator[]` past the end) are modelled with `Option`.
-/

/-- Global bound from `Graph.cpp` line 19: `float z_bound = 50.0f`. -/
def zBound : ℚ := 50

/-- Value of a float expression evaluation: either NaN or a (rational) number.
`exprtk` evaluation yields a float; the code's first test is `std::isnan(z)`. -/
inductive FVal where
  | nan : FVal
  | val : ℚ → FVal
deriving DecidableEq

/-- Per-sample state after the height computation of `Graph.cpp` lines 61–85:
the stored `height`, the per-sample `alpha` flag, and the updated
`last_height` running variable. -/
structure SampleOut where
  height : ℚ
  alpha : ℚ
  lastHeight : ℚ
deriving DecidableEq

/-- Graph.cpp lines 61–79 (the non-raising path): `z` is tested in order
`isnan`, `z < -z_bound`, `z > z_bound`, else normalized as
`(z + z_bound) / (z_bound * 2)`.  The `last_height` variable is updated as the
source does (note line 71 stores `-1` into it, and line 74 is a self-assign);
the stored height never reads `last_height`.  `alpha` stays `1.0f` (line 62)
on this path. -/
def processSample (z : FVal) (lastH : ℚ) : SampleOut :=
  match z with
  | .nan => { height := -1, alpha := 1, lastHeight := lastH }
  | .val z =>
    if z < -zBound then { height := -1, alpha := 1, lastHeight := -1 }
    else if z > zBound then { height := -1, alpha := 1, lastHeight := lastH }
    else { height := (z + zBound) / (zBound * 2), alpha := 1,
           lastHeight := (z + zBound) / (zBound * 2) }

/-- Outcome of `expression.value()` at `Graph.cpp` line 61: the call either
returns a float or raises. -/
inductive EvalOutcome where
  | raises : EvalOutcome
  | ret : FVal → EvalOutcome

/-- Graph.cpp lines 61–85 with C++ exception semantics.  The call
`expression.value()` sits at line 61, *before* the `try` block that opens at
line 66; the guarded region (lines 67–79) consists of `std::isnan`,
comparisons and arithmetic, none of which can raise, so the `catch` at
line 81 is unreachable.  A raising evaluation therefore propagates out of the
constructor, modelled as `Except.error`. -/
def processSampleExc (e : EvalOutcome) (lastH : ℚ) : Except Unit SampleOut :=
  match e with
  | .raises => .error ()
  | .ret z => .ok (processSample z lastH)

/-- Height the `catch` handler at `Graph.cpp` line 82 would store. -/
def catchHeight : ℚ := 1/2

/-- Alpha flag the `catch` handler at `Graph.cpp` line 83 would store. -/
def catchAlpha : ℚ := 0

/-- Model of `glm::clamp(v, lo, hi) = min(max(v, lo), hi)`. -/
def clampQ (v lo hi : ℚ) : ℚ := min (max v lo) hi

/-- Graph.cpp line 112: the alpha pushed into the color stream is
`glm::clamp(alpha - 0.1f, 0.0f, 1.0f)`. -/
def emittedAlpha (alpha : ℚ) : ℚ := clampQ (alpha - 1/10) 0 1

/-- Graph.cpp lines 91–97: `yellowTint = height*8 - 3.8f`, then clamped to
`[0, 1]` by the two `if` statements. -/
def yellowTint (height : ℚ) : ℚ :=
  let raw := height * 8 - 19/5
  if raw > 1 then 1 else if raw < 0 then 0 else raw

/-- Graph.cpp lines 99–112: the `(r, g, b, a)` quad pushed for one sample.
`id == 1` selects the blue channel, `id == 2` the green channel, and every
other identity falls into the final `else` (red channel). -/
def sampleColor (id : ℕ) (height alpha : ℚ) : ℚ × ℚ × ℚ × ℚ :=
  let tint := yellowTint height
  if id = 1 then (0, 0, 1 - tint, emittedAlpha alpha)
  else if id = 2 then (0, 1 - tint, 0, emittedAlpha alpha)
  else (1 - tint, 0, 0, emittedAlpha alpha)

/-- Grid step `10.0 / (dimension - 1.0)` from `Graph.cpp` lines 57–58. -/
def gridStep (n : ℕ) : ℚ := 10 / ((n : ℚ) - 1)

/-- Value of the loop variable after `k` increments, starting at `-5.0`.
Over exact rationals the accumulation `y += step` equals `-5 + k * step`. -/
def sampleCoord (n k : ℕ) : ℚ := -5 + (k : ℚ) * gridStep n

/-- Indices `k` visited by one axis loop `for (y = -5.0; y <= 5.001; y += step)`
of `Graph.cpp` lines 57–58, embedded with exact rational accumulation.  The
range bound `2*n` is a fuel bound: the loop runs at most
`1.0001*(n-1) + 1 < 2*n` times for `n ≥ 2`. -/
def axisKs (n : ℕ) : List ℕ :=
  (List.range (2 * n)).takeWhile (fun k => sampleCoord n k ≤ 5001/1000)

/-- Number of samples taken along one axis. -/
def rowCount (n : ℕ) : ℕ := (axisKs n).length

/-- Coordinate values visited along one axis. -/
def axisVals (n : ℕ) : List ℚ := (axisKs n).map (sampleCoord n)

/-- Row-major sample coordinates of the nested loops at `Graph.cpp`
lines 57–58: the outer loop runs over `y`, the inner over `x`. -/
def gridCoords (n : ℕ) : List (ℚ × ℚ) :=
  (axisVals n).flatMap (fun yv => (axisVals n).map (fun xv => (xv, yv)))

/-- Sampling loop body threading `last_height` through consecutive samples
(row-major), as in `Graph.cpp` lines 56–85. -/
def gridGo (f : ℚ → ℚ → FVal) : List (ℚ × ℚ) → ℚ → List SampleOut
  | [], _ => []
  | c :: rest, lastH =>
    let s := processSample (f c.1 c.2) lastH
    s :: gridGo f rest s.lastHeight

/-- All samples produced by the constructor's sampling loops; `last_height`
starts at `0.5f` (`Graph.cpp` line 56). -/
def gridSamples (f : ℚ → ℚ → FVal) (n : ℕ) : List SampleOut :=
  gridGo f (gridCoords n) (1/2)

/-- Stored `m_heightData` contents, in index order. -/
def gridHeights (f : ℚ → ℚ → FVal) (n : ℕ) : List ℚ :=
  (gridSamples f n).map SampleOut.height

/-- Graph.cpp lines 46–47: the constructor calls
`parser.compile(equation, expression)` and discards the returned status; no
branch of the constructor inspects it, so construction proceeds identically
whether or not the equation compiled.  `compileOk` is the discarded status,
`f` the function the (possibly degenerate) expression evaluates to. -/
def graphConstruct (compileOk : Bool) (f : ℚ → ℚ → FVal) (n : ℕ)
    (id : ℕ) : List SampleOut :=
  gridSamples f n

/-- Row-major flat index of grid point `(x, y)`: `x + y * dimension`
(`Graph.cpp` line 215 and the `m_heightData` indexing throughout). -/
def flatIdx (n x y : ℕ) : ℕ := x + y * n

/-- Graph.cpp lines 215–229: for cell `(x, y)` with `curr = x + y*n`, the two
independently tested candidate triangles.  Triangle 1 `(curr, curr+1, curr+n)`
is emitted iff `m_heightData` is `≥ 0` at `curr`, `curr+1`, `curr+n`;
triangle 2 `(curr+1, curr+n+1, curr+n)` iff it is `≥ 0` at `curr+n+1`,
`curr+1`, `curr+n`. -/
def cellTriangles (n : ℕ) (h : ℕ → ℚ) (x y : ℕ) : List (ℕ × ℕ × ℕ) :=
  (if 0 ≤ h (x + y * n) ∧ 0 ≤ h (x + y * n + 1) ∧ 0 ≤ h (x + y * n + n) then
    [(x + y * n, x + y * n + 1, x + y * n + n)]
  else []) ++
  (if 0 ≤ h (x + y * n + n + 1) ∧ 0 ≤ h (x + y * n + 1) ∧
      0 ≤ h (x + y * n + n) then
    [(x + y * n + 1, x + y * n + n + 1, x + y * n + n)]
  else [])

/-- Graph.cpp lines 213–231: the index buffer, three indices per emitted
triangle, cells visited row-major for `x, y < dimension - 1`. -/
def updateBuffersIBO (n : ℕ) (h : ℕ → ℚ) : List ℕ :=
  (List.range (n - 1)).flatMap (fun y =>
    (List.range (n - 1)).flatMap (fun x =>
      (cellTriangles n h x y).flatMap (fun t => [t.1, t.2.1, t.2.2])))

/-- Number of triangles emitted for one cell (0, 1 or 2). -/
def cellTriCount (n : ℕ) (h : ℕ → ℚ) (x y : ℕ) : ℕ :=
  (cellTriangles n h x y).length

/-- Total number of emitted triangles. -/
def triangleCount (n : ℕ) (h : ℕ → ℚ) : ℕ :=
  ((List.range (n - 1)).map (fun y =>
    ((List.range (n - 1)).map (fun x => cellTriCount n h x y)).sum)).sum

/-- Graph.cpp lines 86–88: per sample the positions stream receives `x`, the
un-normalized clamped height `clamp(height*(2*50) - 50, -50, 50)`, and `y`. -/
def positionsList (f : ℚ → ℚ → FVal) (n : ℕ) : List ℚ :=
  (List.zip (gridCoords n) (gridSamples f n)).flatMap (fun p =>
    [p.1.1, clampQ (p.2.height * (zBound * 2) - zBound) (-zBound) zBound, p.1.2])

/-- Graph.cpp lines 91–112: per sample the colors stream receives the four
components of `sampleColor`. -/
def colorsList (f : ℚ → ℚ → FVal) (n id : ℕ) : List ℚ :=
  (gridSamples f n).flatMap (fun s =>
    let c := sampleColor id s.height s.alpha
    [c.1, c.2.1, c.2.2.1, c.2.2.2])

/-- Graph.cpp lines 250–265: central-difference estimate of `∂z/∂x` at
`(x, y)`: neighbor heights are un-normalized (`h*(2*50) - 50`) and the
difference divided by `2*10/(dimension-1)`. -/
def dzdx (n : ℕ) (h : ℕ → ℚ) (x y : ℕ) : ℚ :=
  let lp := h ((x - 1) + y * n) * (zBound * 2) - zBound
  let rp := h ((x + 1) + y * n) * (zBound * 2) - zBound
  (rp - lp) / (2 * 10 / ((n : ℚ) - 1))

/-- Graph.cpp lines 267–281: central-difference estimate of `∂z/∂y`. -/
def dzdy (n : ℕ) (h : ℕ → ℚ) (x y : ℕ) : ℚ :=
  let dp := h (x + (y - 1) * n) * (zBound * 2) - zBound
  let up := h (x + (y + 1) * n) * (zBound * 2) - zBound
  (up - dp) / (2 * 10 / ((n : ℚ) - 1))

/-- Componentwise cross product, as `glm::cross(a, b)`. -/
def crossProd (a b : ℚ × ℚ × ℚ) : ℚ × ℚ × ℚ :=
  (a.2.1 * b.2.2 - a.2.2 * b.2.1,
   a.2.2 * b.1 - a.1 * b.2.2,
   a.1 * b.2.1 - a.2.1 * b.1)

/-- Model of `glm::normalize`: divide each component by the Euclidean norm
(the one genuinely irrational operation, hence valued in `ℝ`). -/
noncomputable def unitize (v : ℚ × ℚ × ℚ) : ℝ × ℝ × ℝ :=
  let L : ℝ := Real.sqrt ((v.1 : ℝ) ^ 2 + (v.2.1 : ℝ) ^ 2 + (v.2.2 : ℝ) ^ 2)
  ((v.1 : ℝ) / L, (v.2.1 : ℝ) / L, (v.2.2 : ℝ) / L)

/-- Graph.cpp lines 239–294 (`calculateNormals`), one vertex: boundary rows
and columns (line 243) and sentinel-adjacent vertices (lines 254, 271) get
the zero vector; otherwise the normal is
`normalize(cross(vector_y, vector_x))` with `vector_x = (1, ∂z/∂x, 0)` and
`vector_y = (0, ∂z/∂y, 1)` (lines 283–288 — note the operand order). -/
noncomputable def normalAt (n : ℕ) (h : ℕ → ℚ) (x y : ℕ) : ℝ × ℝ × ℝ :=
  if x = 0 ∨ n - 1 ≤ x ∨ y = 0 ∨ n - 1 ≤ y then (0, 0, 0)
  else if h ((x - 1) + y * n) < 0 ∨ h ((x + 1) + y * n) < 0 then (0, 0, 0)
  else if h (x + (y - 1) * n) < 0 ∨ h (x + (y + 1) * n) < 0 then (0, 0, 0)
  else unitize (crossProd (0, dzdy n h x y, 1) (1, dzdx n h x y, 0))

/-- Graph.cpp lines 237–297: the normals stream, three floats per grid
vertex, all `dimension × dimension` of them. -/
noncomputable def normalsList (n : ℕ) (h : ℕ → ℚ) : List ℝ :=
  (List.range n).flatMap (fun y => (List.range n).flatMap (fun x =>
    [(normalAt n h x y).1, (normalAt n h x y).2.1, (normalAt n h x y).2.2]))

/-- Contents of the `m_heightData` array as a function of the flat index. -/
def heightAt (f : ℚ → ℚ → FVal) (n : ℕ) : ℕ → ℚ :=
  fun idx => (gridHeights f n).getD idx (-1)

/-- Graph.cpp lines 180–211: the interleaved vertex buffer — for each
`i < positions.size()/3` twelve floats: position, normal, color, and the two
constant zero texture coordinates (lines 208–209). -/
def updateBuffersVBO (positions normals colors : List ℝ) : List ℝ :=
  (List.range (positions.length / 3)).flatMap (fun i =>
    [positions.getD (i * 3) 0, positions.getD (i * 3 + 1) 0,
     positions.getD (i * 3 + 2) 0,
     normals.getD (i * 3) 0, normals.getD (i * 3 + 1) 0,
     normals.getD (i * 3 + 2) 0,
     colors.getD (i * 4) 0, colors.getD (i * 4 + 1) 0,
     colors.getD (i * 4 + 2) 0, colors.getD (i * 4 + 3) 0,
     0, 0])

/-- The mesher's vertex buffer for a graph. -/
noncomputable def graphVBO (f : ℚ → ℚ → FVal) (n id : ℕ) : List ℝ :=
  updateBuffersVBO ((positionsList f n).map (fun q : ℚ => (q : ℝ)))
    (normalsList n (heightAt f n))
    ((colorsList f n id).map (fun q : ℚ => (q : ℝ)))

/-- The mesher's index buffer for a graph. -/
def graphIBO (f : ℚ → ℚ → FVal) (n : ℕ) : List ℕ :=
  updateBuffersIBO n (heightAt f n)

/-- OBJModel.cpp lines 14–27: the dedup record — position `(x, y, z)` and
texture coordinate `(s, t)`; `operator==` is exact componentwise float
equality, modelled by decidable equality on exact rationals. -/
structure VertexData where
  x : ℚ
  y : ℚ
  z : ℚ
  s : ℚ
  t : ℚ
deriving DecidableEq

/-- Model of `std::find(vertices.begin(), vertices.end(), vertex)`
(OBJModel.cpp line 206): index of the first equal record, if any. -/
def findFirst (l : List VertexData) (v : VertexData) : Option ℕ :=
  match l with
  | [] => none
  | w :: ws => if w = v then some 0 else (findFirst ws v).map (fun i => i + 1)

/-- OBJModel.cpp lines 204–228, one face-corner record: if no prior record
equals it, append it (its index is the old `vertices.size()`); otherwise push
the index of the first equal record. -/
def dedupStep (st : List VertexData × List ℕ) (v : VertexData) :
    List VertexData × List ℕ :=
  match findFirst st.1 v with
  | some i => (st.1, st.2 ++ [i])
  | none => (st.1 ++ [v], st.2 ++ [st.1.length])

/-- OBJModel.cpp lines 186–234 (`populateBuffers`): fold the dedup step over
the stream of expanded face-corner records (one `VertexData` per face index
group, in face order), producing the unique-record list and the index
buffer. -/
def populateBuffers (input : List VertexData) : List VertexData × List ℕ :=
  input.foldl dedupStep ([], [])

/-- OBJModel.cpp lines 209–220: the twelve floats pushed for a newly appended
record — position, zero normal, white opaque color, texture coordinate. -/
def vertexRecord (v : VertexData) : List ℚ :=
  [v.x, v.y, v.z, 0, 0, 0, 1, 1, 1, 1, v.s, v.t]

/-- The loader's interleaved vertex buffer: one 12-float record per unique
`VertexData`, in append order. -/
def objVBO (input : List VertexData) : List ℚ :=
  (populateBuffers input).1.flatMap vertexRecord

/-- Model of `std::string::find` (single character) stored into an `int`
(OBJModel.cpp lines 79, 83): position of the first occurrence, or `-1`
(`npos` converted to `int`). -/
def strFind (s : List Char) (c : Char) : ℤ :=
  match s.findIdx? (fun a => a = c) with
  | some i => (i : ℤ)
  | none => -1

/-- Model of `substr(0, count)` with an `int` count: a negative count
converts to a `size_t` larger than any string, so the whole string is
returned (this also models `substr(0, -1)` at OBJModel.cpp line 123). -/
def cppSubstrTake (s : List Char) (count : ℤ) : List Char :=
  if count < 0 then s else s.take count.toNat

/-- Model of `substr(pos, chunk.length())` (OBJModel.cpp lines 83, 85, 93):
the count clamps to the remainder, so this is a drop.  All call sites pass
`pos ≥ 0`. -/
def substrFrom (s : List Char) (pos : ℤ) : List Char := s.drop pos.toNat

/-- Numeric value of a digit string (most significant first). -/
def digitsVal (l : List Char) : ℕ :=
  l.foldl (fun acc c => acc * 10 + (c.toNat - 48)) 0

/-- Model of `std::stoi` on the face-group number tokens: the value of the
leading digit run.  (Real `stoi` throws on inputs with no leading digits;
the face-group slices of interest always start with a digit.) -/
def stoiModel (s : List Char) : ℤ :=
  (digitsVal (s.takeWhile (fun c => c.isDigit)) : ℤ)

/-- Conversion of an `int` to `unsigned int` (OBJModel.cpp lines 95–97 push
`int` values into a `std::vector<unsigned int>`): reduction mod `2^32`. -/
def toUInt32 (i : ℤ) : ℕ := (i % 4294967296).toNat

/-- OBJModel.cpp lines 79–97: parse one face index group `chunk`.
`slashesIndex` is the first `/`; the text before it is the 1-based position
index; `part2` is the text after it; if `part2` has a `/` at a position
`> 0`, the text before it is the 1-based texture index, else `textureIndex`
stays `-1`; the text after `part2`'s first `/` is the 1-based normal index.
The three indices, each decremented, are pushed as `unsigned int`. -/
def parseFaceChunk (chunk : List Char) : List ℕ :=
  let s1 := strFind chunk '/'
  let vertIndex : ℤ := stoiModel (cppSubstrTake chunk s1) - 1
  let part2 := substrFrom chunk (s1 + 1)
  let s2 := strFind part2 '/'
  let textureIndex : ℤ :=
    if s2 > 0 then stoiModel (cppSubstrTake part2 s2) - 1 else -1
  let normIndex : ℤ := stoiModel (substrFrom part2 (s2 + 1)) - 1
  [toUInt32 vertIndex, toUInt32 textureIndex, toUInt32 normIndex]

/-- OBJModel.cpp lines 194, 201–202: the texture coordinate fetched for a
face's texture index `text` (an `unsigned int`): the accesses
`m_VertTexts[text*2 + 0]` and `m_VertTexts[text*2 + 1]` with 32-bit wrapping
index arithmetic; `operator[]` past the end is undefined behavior, modelled
as `none`. -/
def texLookup (vt : List ℚ) (text : ℕ) : Option (ℚ × ℚ) :=
  match vt[(text * 2 + 0) % 4294967296]?, vt[(text * 2 + 1) % 4294967296]? with
  | some sv, some tv => some (sv, tv)
  | _, _ => none

/-- OBJModel.cpp lines 115–121: scan the path from the end for `/`; the
found position plus one, or `-1` when absent.  (A first occurrence at
reversed position `j` is at position `length - 1 - j`, so the stored index
is `length - j`.) -/
def lastSlashSucc (s : List Char) : ℤ :=
  match s.reverse.findIdx? (fun a => a = '/') with
  | some j => (s.length : ℤ) - (j : ℤ)
  | none => -1

/-- OBJModel.cpp line 123: `m_ObjectPath = fileName.substr(0, index)` — with
`index = -1` (no separator) the conversion to `size_t` yields `npos` and the
whole path is returned. -/
def objectPath (fileName : List Char) : List Char :=
  cppSubstrTake fileName (lastSlashSucc fileName)

/-- OBJModel.cpp line 124: the resolved material-library filename. -/
def resolveMaterialFile (fileName mtl : List Char) : List Char :=
  objectPath fileName ++ mtl

/-- OBJModel.cpp lines 142–169: scan tokenized, comment-stripped lines for
the first `map_Kd` directive that has an argument; a line whose first token
is anything else is skipped. -/
def findMapKd : List (List (List Char)) → Option (List Char)
  | [] => none
  | line :: rest =>
    match line with
    | t0 :: t1 :: _ =>
      if t0 = ("map_Kd").toList then some t1 else findMapKd rest
    | _ => findMapKd rest

/-- OBJModel.cpp lines 136–174 (`getTexture`): a missing material file
(`is_open()` false) yields the empty string; otherwise the object-path
prefixed argument of the first `map_Kd` directive, or the empty string when
none exists. -/
def getTexture (objPath : List Char)
    (file : Option (List (List (List Char)))) : List Char :=
  match file with
  | none => []
  | some ls =>
    match findMapKd ls with
    | some tok => objPath ++ tok
    | none => []

/-! ### Claims C3, C4, C5, C10 -/

/-- C3: the claim says an equation that fails to compile must abort mesh
construction and report the failure.  The code ignores the result of
`parser.compile` (`Graph.cpp` line 47): construction proceeds identically on
a failed compile, silently sampling the degenerate expression — there is no
abort path at all in the constructor. -/
theorem c3_compile_status_ignored :
    ∀ (f : ℚ → ℚ → FVal) (n id : ℕ),
      graphConstruct false f n id = graphConstruct true f n id :=
  fun _ _ _ => rfl

/-- C4: a NaN result, a result below `-50`, or a result above `50` is stored
as the sentinel `-1 < 0` — in particular an over-bound-high sample does not
receive a carried-forward copy of `last_height` (the stored value is `-1`
whatever `lastH` is) — and any other result is stored as `(z + 50) / 100`,
which lies in `[0, 1]`. -/
theorem c4_sample_normalization (z lastH : ℚ) :
    (processSample FVal.nan lastH).height = -1 ∧
    (z < -50 → (processSample (FVal.val z) lastH).height = -1) ∧
    (50 < z → (processSample (FVal.val z) lastH).height = -1) ∧
    (-50 ≤ z → z ≤ 50 →
      (processSample (FVal.val z) lastH).height = (z + 50) / 100 ∧
      0 ≤ (z + 50) / 100 ∧ (z + 50) / 100 ≤ 1) ∧
    (-1 : ℚ) < 0 := by
  refine ⟨rfl, ?_, ?_, ?_, by norm_num⟩
  · intro h
    simp only [processSample, zBound]
    rw [if_pos (by linarith)]
  · intro h
    simp only [processSample, zBound]
    rw [if_neg (by linarith), if_pos (by linarith)]
  · intro h1 h2
    refine ⟨?_, div_nonneg (by linarith) (by norm_num),
      by rw [div_le_one (by norm_num)]; linarith⟩
    simp only [processSample, zBound]
    rw [if_neg (by linarith), if_neg (by linarith)]
    norm_num

/-- Witness for `c4_sample_normalization` at concrete inputs: an in-range
sample `z = 7` normalizes to `57/100`, and an over-bound-high sample `z = 60`
is stored as the sentinel `-1` even though `last_height` is `1/3`. -/
theorem c4_sample_normalization_witness :
    (processSample (FVal.val 7) (1/3)).height = (7 + 50) / 100 ∧
    (processSample (FVal.val 60) (1/3)).height = -1 :=
  ⟨((c4_sample_normalization 7 (1/3)).2.2.2.1 (by norm_num) (by norm_num)).1,
   (c4_sample_normalization 60 (1/3)).2.2.1 (by norm_num)⟩

/-- Helper: on the non-raising path the alpha flag is always `1`
(`Graph.cpp` line 62; no branch of lines 66–79 modifies it). -/
theorem processSample_alpha (z : FVal) (lastH : ℚ) :
    (processSample z lastH).alpha = 1 := by
  cases z with
  | nan => rfl
  | val q =>
    simp only [processSample]
    split <;> [rfl; split <;> rfl]

/-- C5 counterexample: the claim says a raising evaluation is kept as a
soft-invalid sample of height `0.5` with emitted alpha `0.9`.  In the code
`expression.value()` (line 61) is evaluated *before* the `try` block opens at
line 66, so the exception propagates out of the constructor and no sample is
stored; moreover the (unreachable) handler sets the alpha flag to `0.0f`
(line 83), which after the deduction and clamp of line 112 emits alpha `0`,
fully transparent. -/
theorem c5_soft_invalid_counterexample :
    processSampleExc EvalOutcome.raises (1/2) = Except.error () ∧
    emittedAlpha catchAlpha = 0 ∧ (0 : ℚ) ≠ 9/10 := by
  refine ⟨rfl, by norm_num [emittedAlpha, clampQ, catchAlpha, min_def, max_def],
    by norm_num⟩

/-- C5 amended: a raising evaluation is not recovered — the evaluation call
precedes the guarded region, so the failure propagates out of construction —
and every stored sample comes from a non-raising evaluation with alpha flag
`1`, emitted as `9/10`.  The catch handler (unreachable, since the guarded
region cannot raise) would store height `1/2` with alpha flag `0`, whose
emitted alpha is `0` (fully transparent), not `9/10`. -/
theorem c5_evaluation_failure_propagates :
    (∀ lastH : ℚ, processSampleExc EvalOutcome.raises lastH = Except.error ()) ∧
    (∀ (z : FVal) (lastH : ℚ) (s : SampleOut),
      processSampleExc (EvalOutcome.ret z) lastH = Except.ok s →
      s.alpha = 1 ∧ emittedAlpha s.alpha = 9/10) ∧
    (catchHeight = 1/2 ∧ catchAlpha = 0 ∧ emittedAlpha catchAlpha = 0) := by
  refine ⟨fun _ => rfl, ?_,
    ⟨rfl, rfl, by norm_num [emittedAlpha, clampQ, catchAlpha, min_def, max_def]⟩⟩
  intro z lastH s hs
  simp only [processSampleExc] at hs
  cases hs
  have halpha := processSample_alpha z lastH
  exact ⟨halpha, by rw [halpha]; norm_num [emittedAlpha, clampQ, min_def, max_def]⟩

/-- Witness for `c5_evaluation_failure_propagates`: the non-raising sample
`z = 0` is stored with alpha flag `1` and emitted alpha `9/10`. -/
theorem c5_evaluation_failure_propagates_witness :
    (processSample (FVal.val 0) (1/2)).alpha = 1 ∧
    emittedAlpha (processSample (FVal.val 0) (1/2)).alpha = 9/10 :=
  c5_evaluation_failure_propagates.2.1 (FVal.val 0) (1/2)
    (processSample (FVal.val 0) (1/2)) rfl

/-- C10: every sample that evaluates without raising carries alpha flag `1`,
so its emitted alpha is exactly `clamp(1 - 0.1, 0, 1) = 9/10 < 1` — the 0.1
deduction of `Graph.cpp` line 112 applies to every sample, so no mesher
vertex is ever fully opaque — and every surface identity other than `1` and
`2` falls through to the red base channel (lines 99–111 validate nothing). -/
theorem c10_alpha_deduction_and_red_fallback (z : FVal) (lastH height : ℚ)
    (id : ℕ) :
    (sampleColor id height (processSample z lastH).alpha).2.2.2 = 9/10 ∧
    (9 : ℚ)/10 < 1 ∧
    (id ≠ 1 → id ≠ 2 →
      sampleColor id height (processSample z lastH).alpha =
        (1 - yellowTint height, 0, 0, 9/10)) := by
  have halpha := processSample_alpha z lastH
  have hem : emittedAlpha (processSample z lastH).alpha = 9/10 := by
    rw [halpha]; norm_num [emittedAlpha, clampQ, min_def, max_def]
  refine ⟨?_, by norm_num, ?_⟩
  · simp only [sampleColor]
    split <;> [exact hem; split <;> [exact hem; exact hem]]
  · intro h1 h2
    simp only [sampleColor, if_neg h1, if_neg h2, hem]

/-- Witness for `c10_alpha_deduction_and_red_fallback`: identity `5` (not a
recognized identity) selects the red channel with emitted alpha `9/10`. -/
theorem c10_alpha_deduction_and_red_fallback_witness :
    sampleColor 5 (1/2) (processSample (FVal.val 3) (1/2)).alpha =
      (1 - yellowTint (1/2), 0, 0, 9/10) :=
  (c10_alpha_deduction_and_red_fallback (FVal.val 3) (1/2) (1/2) 5).2.2
    (by norm_num) (by norm_num)

/-! ### Claim C2 -/

/-- Helper: `flatIdx` is injective on in-range columns. -/
theorem flatIdx_injective {n a b c d : ℕ} (ha : a < n) (hc : c < n)
    (h : flatIdx n a b = flatIdx n c d) : a = c ∧ b = d := by
  have hn : 0 < n := lt_of_le_of_lt (Nat.zero_le a) ha
  have hmod : (a + b * n) % n = (c + d * n) % n := by
    simpa [flatIdx] using congrArg (· % n) h
  rw [Nat.add_mul_mod_self_right, Nat.add_mul_mod_self_right,
    Nat.mod_eq_of_lt ha, Nat.mod_eq_of_lt hc] at hmod
  subst hmod
  have : b * n = d * n := by
    have := h
    simp only [flatIdx] at this
    omega
  exact ⟨rfl, Nat.eq_of_mul_eq_mul_right hn this⟩

/-- Helper: in-range grid points have flat index below `n * n`. -/
theorem flatIdx_lt {n a b : ℕ} (ha : a < n) (hb : b < n) :
    flatIdx n a b < n * n := by
  have h1 : b * n ≤ (n - 1) * n := Nat.mul_le_mul_right n (by omega)
  have h2 : (n - 1) * n + n = n * n := by
    cases n with
    | zero => omega
    | succ m => simp only [Nat.succ_sub_one]; ring
  simp only [flatIdx]
  omega

/-- Helper: membership in the append of two conditional singletons. -/
theorem mem_ite_singleton_append {α : Type} (P Q : Prop) [Decidable P]
    [Decidable Q] (a b c : α) :
    (c ∈ (if P then [a] else []) ++ (if Q then [b] else [])) ↔
      ((P ∧ c = a) ∨ (Q ∧ c = b)) := by
  split_ifs with h1 h2 <;> simp_all

/-- C2: triangle 1 of cell `(x, y)` (corners `(x,y)`, `(x+1,y)`, `(x,y+1)`) is
emitted iff all three corner samples are non-sentinel, and independently
triangle 2 (corners `(x+1,y+1)`, `(x+1,y)`, `(x,y+1)`) iff all three of its
corners are non-sentinel; consequently when exactly one grid sample `(i, j)`
is a sentinel, each candidate triangle is emitted iff `(i, j)` is not among
its corners (so the diagonal partner of a suppressed triangle may still be
emitted). -/
theorem c2_triangle_emission (n : ℕ) (h : ℕ → ℚ) (x y : ℕ)
    (hx : x < n - 1) (hy : y < n - 1) :
    ((x + y * n, x + y * n + 1, x + y * n + n) ∈ cellTriangles n h x y ↔
      0 ≤ h (flatIdx n x y) ∧ 0 ≤ h (flatIdx n (x + 1) y) ∧
      0 ≤ h (flatIdx n x (y + 1))) ∧
    ((x + y * n + 1, x + y * n + n + 1, x + y * n + n) ∈ cellTriangles n h x y ↔
      0 ≤ h (flatIdx n (x + 1) (y + 1)) ∧ 0 ≤ h (flatIdx n (x + 1) y) ∧
      0 ≤ h (flatIdx n x (y + 1))) ∧
    (∀ i j : ℕ, i < n → j < n → h (flatIdx n i j) < 0 →
      (∀ idx : ℕ, idx < n * n → idx ≠ flatIdx n i j → 0 ≤ h idx) →
      (((x + y * n, x + y * n + 1, x + y * n + n) ∈ cellTriangles n h x y ↔
        ¬((i, j) = (x, y) ∨ (i, j) = (x + 1, y) ∨ (i, j) = (x, y + 1))) ∧
       ((x + y * n + 1, x + y * n + n + 1, x + y * n + n) ∈
          cellTriangles n h x y ↔
        ¬((i, j) = (x + 1, y + 1) ∨ (i, j) = (x + 1, y) ∨
          (i, j) = (x, y + 1))))) := by
  have hxn : x + 1 < n := by omega
  have hyn : y + 1 < n := by omega
  have hx0 : x < n := by omega
  have hy0 : y < n := by omega
  have e1 : flatIdx n (x + 1) y = x + y * n + 1 := by simp [flatIdx]; ring
  have e2 : flatIdx n x (y + 1) = x + y * n + n := by simp [flatIdx]; ring
  have e3 : flatIdx n (x + 1) (y + 1) = x + y * n + n + 1 := by
    simp [flatIdx]; ring
  have hbase : ∀ c : ℕ × ℕ × ℕ, (c ∈ cellTriangles n h x y) ↔
      (((0 ≤ h (x + y * n) ∧ 0 ≤ h (x + y * n + 1) ∧ 0 ≤ h (x + y * n + n)) ∧
        c = (x + y * n, x + y * n + 1, x + y * n + n)) ∨
       ((0 ≤ h (x + y * n + n + 1) ∧ 0 ≤ h (x + y * n + 1) ∧
         0 ≤ h (x + y * n + n)) ∧
        c = (x + y * n + 1, x + y * n + n + 1, x + y * n + n))) :=
    fun c => mem_ite_singleton_append _ _ _ _ c
  have hmem1 : (x + y * n, x + y * n + 1, x + y * n + n) ∈
      cellTriangles n h x y ↔
      0 ≤ h (x + y * n) ∧ 0 ≤ h (x + y * n + 1) ∧ 0 ≤ h (x + y * n + n) := by
    rw [hbase]
    constructor
    · rintro (⟨hc, _⟩ | ⟨hc, habs⟩)
      · exact hc
      · exfalso
        rw [Prod.ext_iff] at habs
        omega
    · intro hc
      exact Or.inl ⟨hc, rfl⟩
  have hmem2 : (x + y * n + 1, x + y * n + n + 1, x + y * n + n) ∈
      cellTriangles n h x y ↔
      0 ≤ h (x + y * n + n + 1) ∧ 0 ≤ h (x + y * n + 1) ∧
      0 ≤ h (x + y * n + n) := by
    rw [hbase]
    constructor
    · rintro (⟨hc, habs⟩ | ⟨hc, _⟩)
      · exfalso
        rw [Prod.ext_iff] at habs
        omega
      · exact hc
    · intro hc
      exact Or.inr ⟨hc, rfl⟩
  have hiff1 : (x + y * n, x + y * n + 1, x + y * n + n) ∈
      cellTriangles n h x y ↔
      0 ≤ h (flatIdx n x y) ∧ 0 ≤ h (flatIdx n (x + 1) y) ∧
      0 ≤ h (flatIdx n x (y + 1)) := by
    rw [hmem1, e1, e2]; rfl
  have hiff2 : (x + y * n + 1, x + y * n + n + 1, x + y * n + n) ∈
      cellTriangles n h x y ↔
      0 ≤ h (flatIdx n (x + 1) (y + 1)) ∧ 0 ≤ h (flatIdx n (x + 1) y) ∧
      0 ≤ h (flatIdx n x (y + 1)) := by
    rw [hmem2, e1, e2, e3]
  refine ⟨hiff1, hiff2, ?_⟩
  intro i j hi hj hsent hrest
  have corner : ∀ a b : ℕ, a < n → b < n →
      (0 ≤ h (flatIdx n a b) ↔ ¬((i, j) = (a, b))) := by
    intro a b han hbn
    constructor
    · intro hge hp
      rw [Prod.ext_iff] at hp
      obtain ⟨rfl, rfl⟩ := hp
      exact absurd hge (not_le.mpr hsent)
    · intro hne
      refine hrest (flatIdx n a b) (flatIdx_lt han hbn) ?_
      intro heq
      obtain ⟨rfl, rfl⟩ := flatIdx_injective han hi heq
      exact hne rfl
  constructor
  · rw [hiff1, corner x y hx0 hy0, corner (x + 1) y hxn hy0,
      corner x (y + 1) hx0 hyn]
    simp only [not_or]
  · rw [hiff2, corner (x + 1) (y + 1) hxn hyn, corner (x + 1) y hxn hy0,
      corner x (y + 1) hx0 hyn]
    simp only [not_or]

/-- Witness for `c2_triangle_emission` on a 3×3 grid with a single sentinel at
`(0, 0)`: in cell `(0, 0)`, triangle 1 (whose corners include `(0, 0)`) is
suppressed while its diagonal partner triangle 2 is still emitted. -/
theorem c2_triangle_emission_witness :
    ¬((0, 1, 3) ∈ cellTriangles 3 (fun idx => if idx = 0 then -1 else 1/2) 0 0) ∧
    ((1, 4, 3) ∈ cellTriangles 3 (fun idx => if idx = 0 then -1 else 1/2) 0 0) := by
  have hmain := (c2_triangle_emission 3
    (fun idx => if idx = 0 then -1 else 1/2) 0 0 (by norm_num) (by norm_num)).2.2
    0 0 (by norm_num) (by norm_num) (by norm_num [flatIdx])
    (by
      intro idx _ hne
      have hidx : idx ≠ 0 := by simpa [flatIdx] using hne
      simp [hidx])
  constructor
  · intro hm
    have hm' : (0 + 0 * 3, 0 + 0 * 3 + 1, 0 + 0 * 3 + 3) ∈
        cellTriangles 3 (fun idx => if idx = 0 then (-1 : ℚ) else 1/2) 0 0 := by
      simpa using hm
    have := (hmain.1).mp hm'
    simp at this
  · have hm2 := (hmain.2).mpr (by decide)
    simpa using hm2

/-! ### Claim C1 -/

/-- Helper: `takeWhile` passes over a prefix whose elements all satisfy the
predicate. -/
theorem takeWhile_append_all {α : Type} (p : α → Bool) (l1 l2 : List α)
    (hall : ∀ a ∈ l1, p a = true) :
    (l1 ++ l2).takeWhile p = l1 ++ l2.takeWhile p := by
  induction l1 with
  | nil => simp
  | cons a t ih =>
    have ha : p a = true := hall a (List.mem_cons_self a t)
    simp [List.takeWhile_cons, ha,
      ih (fun b hb => hall b (List.mem_cons_of_mem a hb))]

/-- Helper: the axis loop guard `-5 + k*step ≤ 5.001`, cleared of
denominators. -/
theorem sampleCoord_le_iff (n k : ℕ) (h2 : 2 ≤ n) :
    (sampleCoord n k ≤ 5001/1000) ↔ (10000 * k ≤ 10001 * (n - 1)) := by
  have h1 : (1 : ℕ) ≤ n := by omega
  have hd : ((n - 1 : ℕ) : ℚ) = (n : ℚ) - 1 := by push_cast [h1]; ring
  have hm : (0 : ℚ) < (n : ℚ) - 1 := by
    have : (2 : ℚ) ≤ (n : ℚ) := by exact_mod_cast h2
    linarith
  rw [sampleCoord, gridStep,
    show (-5 : ℚ) + (k : ℚ) * (10 / ((n : ℚ) - 1)) =
      ((k : ℚ) * 10) / ((n : ℚ) - 1) - 5 from by ring,
    sub_le_iff_le_add, div_le_iff hm]
  constructor
  · intro hle
    have h3 : (10000 : ℚ) * (k : ℚ) ≤ 10001 * ((n : ℚ) - 1) := by linarith
    rw [← hd] at h3
    exact_mod_cast h3
  · intro hle
    have h3 : (10000 : ℚ) * (k : ℚ) ≤ 10001 * ((n : ℚ) - 1) := by
      rw [← hd]
      exact_mod_cast hle
    linarith

/-- Helper: when the loop guard holds exactly for `k < t` (and `t` fits in
the fuel), the axis loop visits exactly `k = 0, …, t - 1`. -/
theorem axisKs_eq_range (n t : ℕ) (h2 : 2 ≤ n) (ht : t ≤ 2 * n)
    (hiff : ∀ k : ℕ, (10000 * k ≤ 10001 * (n - 1)) ↔ k < t) :
    axisKs n = List.range t := by
  have hp : (fun k => decide (sampleCoord n k ≤ 5001/1000)) =
      (fun k => decide (k < t)) := by
    funext k
    rw [decide_eq_decide]
    exact (sampleCoord_le_iff n k h2).trans (hiff k)
  obtain ⟨s, hs⟩ : ∃ s, 2 * n = t + s := ⟨2 * n - t, by omega⟩
  rw [axisKs, hp, hs, List.range_add,
    takeWhile_append_all _ _ _
      (by intro a ha; simp only [List.mem_range] at ha; simp [ha])]
  cases s with
  | zero => simp
  | succ m =>
    rw [List.range_succ_eq_map, List.map_cons, List.takeWhile_cons]
    simp

/-- Helper: for dimensions `2 ≤ n ≤ 10000` each axis loop takes exactly `n`
samples (the `5.001` guard absorbs the final accumulated step). -/
theorem rowCount_eq_of_le (n : ℕ) (h2 : 2 ≤ n) (hle : n ≤ 10000) :
    rowCount n = n := by
  rw [rowCount, axisKs_eq_range n n h2 (by omega) (fun k => by omega)]
  exact List.length_range n

/-- Helper: at `n = 10001` the step is `0.001` and the guard `≤ 5.001`
admits `10002` samples per axis — one more than the dimension. -/
theorem rowCount_10001 : rowCount 10001 = 10002 := by
  rw [rowCount,
    axisKs_eq_range 10001 10002 (by norm_num) (by norm_num) (fun k => by omega)]
  exact List.length_range _

/-- Helper: the sampling loop emits one record per coordinate pair. -/
theorem gridGo_length (f : ℚ → ℚ → FVal) (l : List (ℚ × ℚ)) :
    ∀ lastH : ℚ, (gridGo f l lastH).length = l.length := by
  induction l with
  | nil => intro _; rfl
  | cons c rest ih => intro lastH; simp [gridGo, ih]

/-- Helper: length of a `flatMap` whose blocks have constant length. -/
theorem length_flatMap_const {α β : Type} (l : List α) (g : α → List β)
    (c : ℕ) (h : ∀ a, (g a).length = c) :
    (l.flatMap g).length = l.length * c := by
  induction l with
  | nil => simp
  | cons a t ih =>
    simp only [List.flatMap_cons, List.length_append, ih, h a,
      List.length_cons]
    ring

/-- Helper: length of a `flatMap` whose blocks have length `3 * cnt a`. -/
theorem length_flatMap_sum {α β : Type} (l : List α) (g : α → List β)
    (cnt : α → ℕ) (h : ∀ a, (g a).length = 3 * cnt a) :
    (l.flatMap g).length = 3 * (l.map cnt).sum := by
  induction l with
  | nil => simp
  | cons a t ih =>
    simp only [List.flatMap_cons, List.length_append, List.map_cons,
      List.sum_cons, ih, h a]
    ring

/-- Helper: the grid holds `rowCount n ^ 2` coordinate pairs. -/
theorem gridCoords_length (n : ℕ) :
    (gridCoords n).length = rowCount n * rowCount n := by
  rw [gridCoords,
    length_flatMap_const _ _ (rowCount n)
      (fun yv => by simp [axisVals, rowCount])]
  simp [axisVals, rowCount]

/-- Helper: one sample record per grid point. -/
theorem gridSamples_length (f : ℚ → ℚ → FVal) (n : ℕ) :
    (gridSamples f n).length = rowCount n * rowCount n := by
  rw [gridSamples, gridGo_length, gridCoords_length]

/-- Helper: three position floats per sample. -/
theorem positionsList_length (f : ℚ → ℚ → FVal) (n : ℕ) :
    (positionsList f n).length = (rowCount n * rowCount n) * 3 := by
  have hlen := length_flatMap_const
    (List.zip (gridCoords n) (gridSamples f n))
    (fun p => [p.1.1, clampQ (p.2.height * (zBound * 2) - zBound)
      (-zBound) zBound, p.1.2]) 3 (fun p => rfl)
  rw [positionsList, hlen, List.length_zip, gridCoords_length,
    gridSamples_length, min_self]

/-- Helper: the interleaved VBO has twelve floats per vertex record. -/
theorem updateBuffersVBO_length (ps ns cs : List ℝ) :
    (updateBuffersVBO ps ns cs).length = (ps.length / 3) * 12 := by
  have hlen := length_flatMap_const (List.range (ps.length / 3))
    (fun i => [ps.getD (i * 3) 0, ps.getD (i * 3 + 1) 0,
      ps.getD (i * 3 + 2) 0,
      ns.getD (i * 3) 0, ns.getD (i * 3 + 1) 0, ns.getD (i * 3 + 2) 0,
      cs.getD (i * 4) 0, cs.getD (i * 4 + 1) 0, cs.getD (i * 4 + 2) 0,
      cs.getD (i * 4 + 3) 0, 0, 0]) 12 (fun i => rfl)
  rw [updateBuffersVBO, hlen, List.length_range]

/-- Helper: each cell contributes three indices per emitted triangle. -/
theorem cellTriangles_flat_length (n : ℕ) (h : ℕ → ℚ) (x y : ℕ) :
    ((cellTriangles n h x y).flatMap (fun t => [t.1, t.2.1, t.2.2])).length =
      3 * cellTriCount n h x y := by
  have hlen := length_flatMap_const (cellTriangles n h x y)
    (fun t : ℕ × ℕ × ℕ => [t.1, t.2.1, t.2.2]) 3 (fun t => rfl)
  rw [hlen, cellTriCount]
  ring

/-- Helper: total index count is three times the triangle count. -/
theorem updateBuffersIBO_length (n : ℕ) (h : ℕ → ℚ) :
    (updateBuffersIBO n h).length = 3 * triangleCount n h := by
  rw [updateBuffersIBO, triangleCount]
  rw [length_flatMap_sum _ _
    (fun y => ((List.range (n - 1)).map (fun x => cellTriCount n h x y)).sum)
    (fun y => length_flatMap_sum _ _ _ (fun x => cellTriangles_flat_length n h x y))]

/-- Helper: every emitted index addresses a grid point. -/
theorem updateBuffersIBO_mem_lt (n : ℕ) (h : ℕ → ℚ) (i : ℕ)
    (hi : i ∈ updateBuffersIBO n h) : i < n * n := by
  rw [updateBuffersIBO] at hi
  simp only [List.mem_flatMap, List.mem_range] at hi
  obtain ⟨y, hy, x, hx, t, ht, hcomp⟩ := hi
  have ht' := (mem_ite_singleton_append _ _ _ _ t).mp ht
  have hxy : (x + 1) + (y + 1) * n < n * n :=
    flatIdx_lt (by omega) (by omega)
  have hyn : (y + 1) * n = y * n + n := by ring
  rcases ht' with ⟨_, rfl⟩ | ⟨_, rfl⟩ <;> simp at hcomp <;> omega

/-- C1 amended: for every dimension `2 ≤ n ≤ 10000` the mesher's vertex
buffer holds exactly `n²` records of 12 floats each (the exact-accumulation
axis loop takes exactly `n` samples); for every `n ≥ 2` and any height data,
the index count equals `3 ×` the number of emitted triangles — hence is a
multiple of 3 — and every emitted index is `< n²`.  (For `n > 10000` the
`≤ 5.001` loop guard admits extra samples, so the `n²` vertex count fails —
see the counterexample at `n = 10001`.) -/
theorem c1_buffer_guarantees (n : ℕ) (f : ℚ → ℚ → FVal) (id : ℕ)
    (h2 : 2 ≤ n) :
    (n ≤ 10000 →
      (gridSamples f n).length = n ^ 2 ∧
      (graphVBO f n id).length = 12 * n ^ 2) ∧
    (∀ h : ℕ → ℚ,
      (updateBuffersIBO n h).length = 3 * triangleCount n h ∧
      (updateBuffersIBO n h).length % 3 = 0 ∧
      ∀ i ∈ updateBuffersIBO n h, i < n ^ 2) := by
  constructor
  · intro hle
    have hrc := rowCount_eq_of_le n h2 hle
    constructor
    · rw [gridSamples_length, hrc, pow_two]
    · rw [graphVBO, updateBuffersVBO_length]
      simp only [List.length_map]
      rw [positionsList_length, hrc, pow_two]
      have h3 : n * n * 3 / 3 = n * n := by omega
      rw [h3]
      ring
  · intro h
    refine ⟨updateBuffersIBO_length n h, ?_, ?_⟩
    · rw [updateBuffersIBO_length]
      exact Nat.mul_mod_right 3 _
    · intro i hi
      rw [pow_two]
      exact updateBuffersIBO_mem_lt n h i hi

/-- C1 counterexample: at dimension `n = 10001` the step is `0.001`, the
guard `y ≤ 5.001` admits a 10002nd sample per axis, and the vertex count is
`10002² ≠ 10001²`. -/
theorem c1_vertex_count_counterexample :
    (gridSamples (fun _ _ => FVal.val 0) 10001).length ≠ 10001 ^ 2 := by
  rw [gridSamples_length, rowCount_10001]
  norm_num

/-- Witness for `c1_buffer_guarantees` at `n = 3`: nine samples, and an
index count that is a multiple of three. -/
theorem c1_buffer_guarantees_witness :
    (gridSamples (fun _ _ => FVal.val 0) 3).length = 3 ^ 2 ∧
    (updateBuffersIBO 3 (fun _ => 1/2)).length % 3 = 0 :=
  ⟨((c1_buffer_guarantees 3 (fun _ _ => FVal.val 0) 1 (by norm_num)).1
      (by norm_num)).1,
   ((c1_buffer_guarantees 3 (fun _ _ => FVal.val 0) 1 (by norm_num)).2
      (fun _ => 1/2)).2.1⟩

/-! ### Claim C6 -/

/-- Helper: `unitize` of a vector with nonzero squared norm has unit squared
norm. -/
theorem unitize_sumsq (v : ℚ × ℚ × ℚ)
    (hv : v.1 ^ 2 + v.2.1 ^ 2 + v.2.2 ^ 2 ≠ 0) :
    (unitize v).1 ^ 2 + (unitize v).2.1 ^ 2 + (unitize v).2.2 ^ 2 = 1 := by
  have hges : (0 : ℝ) ≤ (v.1 : ℝ) ^ 2 + (v.2.1 : ℝ) ^ 2 + (v.2.2 : ℝ) ^ 2 := by
    positivity
  have hnz : ((v.1 : ℝ) ^ 2 + (v.2.1 : ℝ) ^ 2 + (v.2.2 : ℝ) ^ 2) ≠ 0 := by
    intro habs
    apply hv
    have : ((v.1 ^ 2 + v.2.1 ^ 2 + v.2.2 ^ 2 : ℚ) : ℝ) = 0 := by
      push_cast
      exact habs
    exact_mod_cast this
  have hS : (0 : ℝ) < (v.1 : ℝ) ^ 2 + (v.2.1 : ℝ) ^ 2 + (v.2.2 : ℝ) ^ 2 :=
    lt_of_le_of_ne hges (Ne.symm hnz)
  have hL : (0 : ℝ) <
      Real.sqrt ((v.1 : ℝ) ^ 2 + (v.2.1 : ℝ) ^ 2 + (v.2.2 : ℝ) ^ 2) :=
    Real.sqrt_pos.mpr hS
  simp only [unitize]
  rw [div_pow, div_pow, div_pow, div_add_div_same, div_add_div_same,
    Real.sq_sqrt hges, div_self hnz]

/-- C6 counterexample: on the all-`0.5` 3×3 grid, at the interior vertex
`(1, 1)` both central differences are `0`; the emitted normal is
`normalize(cross(vector_y, vector_x)) = (0, 1, 0)` (`Graph.cpp` line 286),
while the claim's operand order `cross((1, ∂z/∂x, 0), (0, ∂z/∂y, 1))`
normalizes to `(0, -1, 0)` — the exact negation. -/
theorem c6_cross_order_counterexample :
    normalAt 3 (fun _ => 1/2) 1 1 ≠
      unitize (crossProd (1, dzdx 3 (fun _ => 1/2) 1 1, 0)
        (0, dzdy 3 (fun _ => 1/2) 1 1, 1)) := by
  have hx : dzdx 3 (fun _ => 1/2) 1 1 = 0 := by
    simp [dzdx, zBound]
  have hy : dzdy 3 (fun _ => 1/2) 1 1 = 0 := by
    simp [dzdy, zBound]
  have hn : normalAt 3 (fun _ => 1/2) 1 1 =
      unitize (crossProd (0, 0, 1) (1, 0, 0)) := by
    rw [normalAt, if_neg (by decide), if_neg (by norm_num),
      if_neg (by norm_num), hx, hy]
  rw [hn, hx, hy]
  intro heq
  have h2 := congrArg (fun t : ℝ × ℝ × ℝ => t.2.1) heq
  simp only [unitize, crossProd] at h2
  norm_num at h2

/-- C6 amended: boundary vertices and vertices with a sentinel neighbor get
the zero normal; every interior vertex with four non-sentinel axis neighbors
gets `normalize(cross((0, ∂z/∂y, 1), (1, ∂z/∂x, 0)))` — note the operand
order, the negation of the claim's `cross((1, ∂z/∂x, 0), (0, ∂z/∂y, 1))` —
where the partials are central differences of the un-normalized neighbor
heights divided by twice the grid step, and that normal has unit length
(squared norm exactly 1). -/
theorem c6_normal_policy (n : ℕ) (h : ℕ → ℚ) (x y : ℕ) :
    ((x = 0 ∨ n - 1 ≤ x ∨ y = 0 ∨ n - 1 ≤ y) → normalAt n h x y = (0, 0, 0)) ∧
    (¬(x = 0 ∨ n - 1 ≤ x ∨ y = 0 ∨ n - 1 ≤ y) →
      (h (flatIdx n (x - 1) y) < 0 ∨ h (flatIdx n (x + 1) y) < 0) →
      normalAt n h x y = (0, 0, 0)) ∧
    (¬(x = 0 ∨ n - 1 ≤ x ∨ y = 0 ∨ n - 1 ≤ y) →
      ¬(h (flatIdx n (x - 1) y) < 0 ∨ h (flatIdx n (x + 1) y) < 0) →
      (h (flatIdx n x (y - 1)) < 0 ∨ h (flatIdx n x (y + 1)) < 0) →
      normalAt n h x y = (0, 0, 0)) ∧
    (¬(x = 0 ∨ n - 1 ≤ x ∨ y = 0 ∨ n - 1 ≤ y) →
      0 ≤ h (flatIdx n (x - 1) y) → 0 ≤ h (flatIdx n (x + 1) y) →
      0 ≤ h (flatIdx n x (y - 1)) → 0 ≤ h (flatIdx n x (y + 1)) →
      normalAt n h x y =
        unitize (crossProd (0, dzdy n h x y, 1) (1, dzdx n h x y, 0)) ∧
      dzdx n h x y =
        ((h (flatIdx n (x + 1) y) * 100 - 50) -
          (h (flatIdx n (x - 1) y) * 100 - 50)) / (2 * gridStep n) ∧
      dzdy n h x y =
        ((h (flatIdx n x (y + 1)) * 100 - 50) -
          (h (flatIdx n x (y - 1)) * 100 - 50)) / (2 * gridStep n) ∧
      (normalAt n h x y).1 ^ 2 + (normalAt n h x y).2.1 ^ 2 +
        (normalAt n h x y).2.2 ^ 2 = 1) := by
  refine ⟨?_, ?_, ?_, ?_⟩
  · intro hb
    rw [normalAt, if_pos hb]
  · intro hb hs
    rw [normalAt, if_neg hb,
      if_pos (show h (x - 1 + y * n) < 0 ∨ h (x + 1 + y * n) < 0 from hs)]
  · intro hb hs1 hs2
    rw [normalAt, if_neg hb,
      if_neg (show ¬(h (x - 1 + y * n) < 0 ∨ h (x + 1 + y * n) < 0) from hs1),
      if_pos (show h (x + (y - 1) * n) < 0 ∨ h (x + (y + 1) * n) < 0 from hs2)]
  · intro hb h1 h2 h3 h4
    have hs1 : ¬(h ((x - 1) + y * n) < 0 ∨ h ((x + 1) + y * n) < 0) := by
      rintro (hc | hc)
      · exact absurd hc (not_lt.mpr h1)
      · exact absurd hc (not_lt.mpr h2)
    have hs2 : ¬(h (x + (y - 1) * n) < 0 ∨ h (x + (y + 1) * n) < 0) := by
      rintro (hc | hc)
      · exact absurd hc (not_lt.mpr h3)
      · exact absurd hc (not_lt.mpr h4)
    have hnf : normalAt n h x y =
        unitize (crossProd (0, dzdy n h x y, 1) (1, dzdx n h x y, 0)) := by
      rw [normalAt, if_neg hb, if_neg hs1, if_neg hs2]
    refine ⟨hnf, ?_, ?_, ?_⟩
    · simp only [dzdx, gridStep, zBound, flatIdx]
      ring
    · simp only [dzdy, gridStep, zBound, flatIdx]
      ring
    · rw [hnf]
      apply unitize_sumsq
      have hval : (crossProd (0, dzdy n h x y, 1) (1, dzdx n h x y, 0)).1 ^ 2 +
          (crossProd (0, dzdy n h x y, 1) (1, dzdx n h x y, 0)).2.1 ^ 2 +
          (crossProd (0, dzdy n h x y, 1) (1, dzdx n h x y, 0)).2.2 ^ 2 =
          dzdx n h x y ^ 2 + 1 + dzdy n h x y ^ 2 := by
        simp only [crossProd]
        ring
      rw [hval]
      positivity

/-- Witness for `c6_normal_policy` at the interior vertex `(1, 1)` of the
all-`0.5` 3×3 grid: the emitted normal equals the normalized cross product
(in the code's operand order) and has unit squared norm. -/
theorem c6_normal_policy_witness :
    normalAt 3 (fun _ => 1/2) 1 1 =
      unitize (crossProd (0, dzdy 3 (fun _ => 1/2) 1 1, 1)
        (1, dzdx 3 (fun _ => 1/2) 1 1, 0)) ∧
    (normalAt 3 (fun _ => 1/2) 1 1).1 ^ 2 +
      (normalAt 3 (fun _ => 1/2) 1 1).2.1 ^ 2 +
      (normalAt 3 (fun _ => 1/2) 1 1).2.2 ^ 2 = 1 := by
  have hm := (c6_normal_policy 3 (fun _ => 1/2) 1 1).2.2.2 (by decide)
    (by norm_num) (by norm_num) (by norm_num) (by norm_num)
  exact ⟨hm.1, hm.2.2.2⟩

/-! ### Claim C8 -/

/-- Helper: `findFirst` fails exactly on absent records. -/
theorem findFirst_eq_none {l : List VertexData} {v : VertexData}
    (h : findFirst l v = none) : v ∉ l := by
  induction l with
  | nil => simp
  | cons w ws ih =>
    by_cases hw : w = v
    · rw [findFirst, if_pos hw] at h
      cases h
    · rw [findFirst, if_neg hw] at h
      have h2 : findFirst ws v = none := by
        cases hf : findFirst ws v with
        | none => rfl
        | some i => rw [hf] at h; simp at h
      intro hmem
      rcases List.mem_cons.mp hmem with rfl | hm
      · exact hw rfl
      · exact ih h2 hm

/-- Helper: a successful `findFirst` returns the index of an equal record. -/
theorem findFirst_eq_some {l : List VertexData} {v : VertexData} {i : ℕ}
    (h : findFirst l v = some i) : l[i]? = some v := by
  induction l generalizing i with
  | nil => simp [findFirst] at h
  | cons w ws ih =>
    by_cases hw : w = v
    · rw [findFirst, if_pos hw] at h
      cases h
      simp [hw]
    · rw [findFirst, if_neg hw] at h
      cases hf : findFirst ws v with
      | none => rw [hf] at h; simp at h
      | some j =>
        rw [hf, Option.map_some'] at h
        cases h
        rw [List.getElem?_cons_succ]
        exact ih hf

/-- Helper: invariant of the dedup fold — the unique-record list stays
duplicate-free, the index buffer grows one entry per input record, and each
entry points at a record equal to its input record. -/
theorem populate_invariant (input : List VertexData) :
    (populateBuffers input).1.Nodup ∧
    (populateBuffers input).2.length = input.length ∧
    (∀ j, j < input.length →
      ∃ i w, (populateBuffers input).2[j]? = some i ∧
        (populateBuffers input).1[i]? = some w ∧ input[j]? = some w) := by
  induction input using List.reverseRecOn with
  | nil =>
    refine ⟨List.nodup_nil, rfl, ?_⟩
    intro j hj
    exact absurd hj (Nat.not_lt_zero j)
  | append_singleton xs x ih =>
    obtain ⟨ihnd, ihlen, ihptr⟩ := ih
    have hfold : populateBuffers (xs ++ [x]) =
        dedupStep (populateBuffers xs) x := by
      rw [populateBuffers, List.foldl_append]
      rfl
    have hlen2 : (xs ++ [x]).length = xs.length + 1 := by simp
    cases hf : findFirst (populateBuffers xs).1 x with
    | some i =>
      have hnew : populateBuffers (xs ++ [x]) =
          ((populateBuffers xs).1, (populateBuffers xs).2 ++ [i]) := by
        rw [hfold, dedupStep, hf]
      rw [hnew]
      refine ⟨ihnd, by simp [ihlen], ?_⟩
      intro j hj
      rw [hlen2] at hj
      rcases Nat.lt_succ_iff_lt_or_eq.mp hj with hjlt | hjeq
      · obtain ⟨i2, w, hibo, hvs, hin⟩ := ihptr j hjlt
        refine ⟨i2, w, ?_, hvs, ?_⟩
        · rw [List.getElem?_append_left (ihlen ▸ hjlt)]
          exact hibo
        · rw [List.getElem?_append_left hjlt]
          exact hin
      · subst hjeq
        refine ⟨i, x, ?_, findFirst_eq_some hf, ?_⟩
        · rw [← ihlen, List.getElem?_concat_length]
        · rw [List.getElem?_concat_length]
    | none =>
      have hnotmem : x ∉ (populateBuffers xs).1 := findFirst_eq_none hf
      have hnew : populateBuffers (xs ++ [x]) =
          ((populateBuffers xs).1 ++ [x],
            (populateBuffers xs).2 ++ [(populateBuffers xs).1.length]) := by
        rw [hfold, dedupStep, hf]
      rw [hnew]
      refine ⟨?_, by simp [ihlen], ?_⟩
      · rw [List.nodup_append]
        refine ⟨ihnd, List.nodup_singleton x, ?_⟩
        intro a ha hax
        rw [List.mem_singleton] at hax
        subst hax
        exact hnotmem ha
      · intro j hj
        rw [hlen2] at hj
        rcases Nat.lt_succ_iff_lt_or_eq.mp hj with hjlt | hjeq
        · obtain ⟨i2, w, hibo, hvs, hin⟩ := ihptr j hjlt
          obtain ⟨hlt2, _⟩ := List.getElem?_eq_some.mp hvs
          refine ⟨i2, w, ?_, ?_, ?_⟩
          · rw [List.getElem?_append_left (ihlen ▸ hjlt)]
            exact hibo
          · rw [List.getElem?_append_left hlt2]
            exact hvs
          · rw [List.getElem?_append_left hjlt]
            exact hin
        · subst hjeq
          refine ⟨(populateBuffers xs).1.length, x, ?_, ?_, ?_⟩
          · rw [← ihlen, List.getElem?_concat_length]
          · rw [List.getElem?_concat_length]
          · rw [List.getElem?_concat_length]

/-- C8: the mesh builder appends a record to the output vertex buffer only
when no previously appended record is exactly equal (so the unique-record
list never holds two identical `(position, texcoord)` records), the index
buffer gets exactly one entry per face-corner record, each entry points at a
record equal to its input record, and two face corners carrying the same
record receive the same index — they point at the single matching record. -/
theorem c8_vertex_dedup (input : List VertexData) :
    (populateBuffers input).1.Nodup ∧
    (populateBuffers input).2.length = input.length ∧
    (∀ j, j < input.length →
      ∃ i w, (populateBuffers input).2[j]? = some i ∧
        (populateBuffers input).1[i]? = some w ∧ input[j]? = some w) ∧
    (∀ (j1 j2 : ℕ) (w : VertexData), j1 < input.length → j2 < input.length →
      input[j1]? = some w → input[j2]? = some w →
      (populateBuffers input).2[j1]? = (populateBuffers input).2[j2]?) := by
  obtain ⟨hnd, hlen, hptr⟩ := populate_invariant input
  refine ⟨hnd, hlen, hptr, ?_⟩
  intro j1 j2 w h1 h2 hw1 hw2
  obtain ⟨i1, w1, hb1, hv1, hi1⟩ := hptr j1 h1
  obtain ⟨i2, w2, hb2, hv2, hi2⟩ := hptr j2 h2
  rw [hi1] at hw1
  rw [hi2] at hw2
  cases hw1
  cases hw2
  obtain ⟨hlt1, he1⟩ := List.getElem?_eq_some.mp hv1
  obtain ⟨hlt2, he2⟩ := List.getElem?_eq_some.mp hv2
  have hidx : i1 = i2 := by
    have heq : (populateBuffers input).1[i1] = (populateBuffers input).1[i2] := by
      rw [he1, he2]
    exact (hnd.getElem_inj_iff).mp heq
  subst hidx
  rw [hb1, hb2]

/-- Witness for `c8_vertex_dedup`: with three face-corner records where the
first and third are identical, both receive the same vertex index. -/
theorem c8_vertex_dedup_witness :
    (populateBuffers
      [⟨0, 0, 0, 0, 0⟩, ⟨1, 0, 0, 0, 0⟩, ⟨0, 0, 0, 0, 0⟩]).2[0]? =
    (populateBuffers
      [⟨0, 0, 0, 0, 0⟩, ⟨1, 0, 0, 0, 0⟩, ⟨0, 0, 0, 0, 0⟩]).2[2]? :=
  (c8_vertex_dedup
    [⟨0, 0, 0, 0, 0⟩, ⟨1, 0, 0, 0, 0⟩, ⟨0, 0, 0, 0, 0⟩]).2.2.2
    0 2 ⟨0, 0, 0, 0, 0⟩ (by norm_num) (by norm_num) rfl rfl

/-! ### Claim C9 -/

/-- Helper: `findMapKd` fails when no line starts with the directive. -/
theorem findMapKd_eq_none (ls : List (List (List Char)))
    (h : ∀ line ∈ ls, line.head? ≠ some (("map_Kd").toList)) :
    findMapKd ls = none := by
  induction ls with
  | nil => rfl
  | cons line rest ih =>
    have hrest : findMapKd rest = none :=
      ih (fun l hl => h l (List.mem_cons_of_mem line hl))
    match line with
    | [] => exact hrest
    | [t0] => exact hrest
    | t0 :: t1 :: more =>
      have ht0 : t0 ≠ ("map_Kd").toList := by
        intro habs
        exact h (t0 :: t1 :: more) (List.mem_cons_self _ _) (by rw [habs]; rfl)
      rw [findMapKd, if_neg ht0]
      exact hrest

/-- C9 counterexample: for the separator-free polygon path `model.obj` with
material library `mat.mtl`, the code resolves the material file to
`model.objmat.mtl` — the whole polygon path is used as the prefix (the
separator scan leaves `index = -1` and `substr(0, -1)` returns the entire
string), not the bare filename the claim requires. -/
theorem c9_no_separator_counterexample :
    resolveMaterialFile (("model.obj").toList) (("mat.mtl").toList) =
      ("model.objmat.mtl").toList ∧
    resolveMaterialFile (("model.obj").toList) (("mat.mtl").toList) ≠
      ("mat.mtl").toList := by
  constructor
  · decide
  · decide

/-- C9 amended: when the polygon path contains a separator, the material
filename is prefixed with the path up to and including the final `/`; when
it contains none, the *entire polygon path* is used as the prefix (the
`substr(0, -1)` quirk), not the empty prefix; a missing material file or one
with no `map_Kd` directive yields the empty result, not an error. -/
theorem c9_material_path_resolution :
    (∀ pre suf mtl : List Char, ('/' ∉ suf) →
      resolveMaterialFile (pre ++ '/' :: suf) mtl = (pre ++ ['/']) ++ mtl) ∧
    (∀ fn mtl : List Char, ('/' ∉ fn) →
      resolveMaterialFile fn mtl = fn ++ mtl) ∧
    (∀ p : List Char, getTexture p none = []) ∧
    (∀ (p : List Char) (ls : List (List (List Char))),
      (∀ line ∈ ls, line.head? ≠ some (("map_Kd").toList)) →
      getTexture p (some ls) = []) := by
  refine ⟨?_, ?_, fun p => rfl, ?_⟩
  · intro pre suf mtl hnosl
    have hrev : (pre ++ '/' :: suf).reverse =
        suf.reverse ++ '/' :: pre.reverse := by
      simp
    have hfind : (suf.reverse ++ '/' :: pre.reverse).findIdx?
        (fun a => a = '/') = some suf.length := by
      rw [List.findIdx?_append]
      have h1 : suf.reverse.findIdx? (fun a => a = '/') = none := by
        rw [List.findIdx?_eq_none_iff]
        intro c hc
        simp only [decide_eq_false_iff_not]
        intro hceq
        subst hceq
        exact hnosl (List.mem_reverse.mp hc)
      have h2 : ('/' :: pre.reverse).findIdx? (fun a => a = '/') = some 0 := by
        rw [List.findIdx?_cons]
        simp
      rw [h1, h2]
      simp
    have hlen : (pre ++ '/' :: suf).length = pre.length + 1 + suf.length := by
      simp
      omega
    have hslash : lastSlashSucc (pre ++ '/' :: suf) =
        ((pre.length + 1 : ℕ) : ℤ) := by
      rw [lastSlashSucc, hrev, hfind, hlen]
      push_cast
      ring
    rw [resolveMaterialFile, objectPath, hslash, cppSubstrTake,
      if_neg (by omega), Int.toNat_natCast,
      List.take_append_eq_append_take, List.take_of_length_le (by omega),
      show pre.length + 1 - pre.length = 1 from by omega]
    simp
  · intro fn mtl hnosl
    have hfind : fn.reverse.findIdx? (fun a => a = '/') = none := by
      rw [List.findIdx?_eq_none_iff]
      intro c hc
      simp only [decide_eq_false_iff_not]
      intro hceq
      subst hceq
      exact hnosl (List.mem_reverse.mp hc)
    rw [resolveMaterialFile, objectPath, lastSlashSucc, hfind]
    rfl
  · intro p ls hls
    rw [getTexture, findMapKd_eq_none ls hls]

/-- Witness for `c9_material_path_resolution`: `dir/mesh.obj` resolves
`mat.mtl` to `dir/mat.mtl`, and a material file whose lines carry no
`map_Kd` directive yields the empty texture result. -/
theorem c9_material_path_resolution_witness :
    ('/' ∉ ("mesh.obj").toList) ∧
    resolveMaterialFile (("dir").toList ++ '/' :: ("mesh.obj").toList)
      (("mat.mtl").toList) = (("dir").toList ++ ['/']) ++ ("mat.mtl").toList ∧
    getTexture (("dir/").toList)
      (some [[("newmtl").toList], [("Kd").toList, ("1").toList]]) = [] :=
  ⟨by decide,
   (c9_material_path_resolution).1 (("dir").toList) (("mesh.obj").toList)
     (("mat.mtl").toList) (by decide),
   (c9_material_path_resolution).2.2.2 (("dir/").toList)
     [[("newmtl").toList], [("Kd").toList, ("1").toList]] (by decide)⟩

/-! ### Claim C7 -/

/-- C7: evaluation of the face-group parser and the texture fetch at the
failing input.  A group `1//1` stores the distinguished no-texture marker
`-1` as the unsigned value `4294967295`, exactly as the claim says; but the
mesh builder then fetches `m_VertTexts[4294967295*2 mod 2^32]`, i.e. index
`4294967294` — an out-of-bounds read (modelled `none`), not the zero
coordinate `(0, 0)`.  A present texture index (group `2/1/3`, stored
0-based as `0`) does fetch the 0-based entry of the texcoord array. -/
theorem c7_missing_texture_evaluation :
    parseFaceChunk (("1//1").toList) = [0, 4294967295, 0] ∧
    parseFaceChunk (("2/1/3").toList) = [1, 0, 2] ∧
    texLookup [] 4294967295 = none ∧
    texLookup [(7 : ℚ), 9] 4294967295 = none ∧
    texLookup [(7 : ℚ), 9] 0 = some (7, 9) := by
  refine ⟨by decide, by decide, by decide, by decide, by decide⟩
